import Mathlib

/-!
Verification of CodePilot's bootstrap / process-supervision layer and the
file-preview sandbox route, as a shallow embedding of
`src/app/api/files/preview/route.ts` (which also carries the Electron main
process: `loadUserShellEnv`, `getPort`, `waitForServer`, `startServer` and the
`app.on(...)` handlers).

Environments are modelled as partial maps `String → Option String`; the
mutable module globals (`serverProcess`, `serverErrors`) as an explicit state
record threaded through the event handlers; the `waitForServer` loop as a
recursive function over the sequence of loop iterations a run performs.
-/

namespace CodePilot

/-! ## Shell environment capture (`loadUserShellEnv`) -/

/-- Split a character list at every occurrence of `sep`, the splitting JS
`String.prototype.split` performs with a one-character separator (an
executable counterpart of `String.splitOn`). -/
def splitOnChar (sep : Char) : List Char → List (List Char)
  | [] => [[]]
  | c :: rest =>
    let r := splitOnChar sep rest
    if c == sep then [] :: r
    else
      match r with
      | [] => [[c]]
      | h :: t => (c :: h) :: t

/-- JS `s.split(sep)` for a one-character separator. -/
def splitString (sep : Char) (s : String) : List String :=
  (splitOnChar sep s.toList).map (fun l => ⟨l⟩)

/-- Split one line of `env` output at the first `=`, as the parse loop of
`loadUserShellEnv` does: `const idx = line.indexOf('=')`; the line is kept only
when `idx > 0`, with `key = line.slice(0, idx)` and
`value = line.slice(idx + 1)`. -/
def parseEnvLine (line : String) : Option (String × String) :=
  let cs := line.toList
  let idx := cs.findIdx (fun c => c == '=')
  if idx = 0 ∨ idx = cs.length then none
  else some (⟨cs.take idx⟩, ⟨cs.drop (idx + 1)⟩)

/-- The accumulation loop of `loadUserShellEnv`: `result.split('\n')`, and each
kept line writes `env[key] = value`, later lines overwriting earlier ones. -/
def parseEnvOutput (out : String) : String → Option String :=
  (splitString '\n' out).foldl
    (fun env line =>
      match parseEnvLine line with
      | some kv => fun q => if q = kv.1 then some kv.2 else env q
      | none => env)
    (fun _ => none)

/-- Failure modes of the `execFileSync` call in `loadUserShellEnv`: process
spawn failure, the wall-clock timeout, or any other thrown error. -/
inductive ExecFailure
  | spawnFailed
  | timedOut
  | other (msg : String)

/-- Outcome of `execFileSync(shell, ['-ilc', 'env'], {timeout: 5000, ...})`. -/
inductive ShellResult
  | ok (stdout : String)
  | err (e : ExecFailure)

/-- The `timeout: 5000` option passed to `execFileSync` (milliseconds). -/
def shellEnvTimeoutMs : Nat := 5000

/-- The function `loadUserShellEnv`, total in the shell call's outcome: the
`try` block parses the dump; the `catch` block warns and returns `{}`.  The
Bool records whether `console.warn` ran. -/
def loadUserShellEnv : ShellResult → (String → Option String) × Bool
  | ShellResult.ok out => (parseEnvOutput out, false)
  | ShellResult.err _ => (fun _ => none, true)

/-! ## Child environment construction (`startServer`) -/

/-- JS object spread `{...lo, ...hi}`: entries written later win. -/
def spreadMerge (lo hi : String → Option String) : String → Option String :=
  fun k =>
    match hi k with
    | some v => some v
    | none => lo k

/-- JS `a || b` on a nullable string: `null` and the empty string are falsy. -/
def jsOrString (a : Option String) (b : String) : String :=
  match a with
  | some s => if s = "" then b else s
  | none => b

/-- The `basePath` constant of `startServer`. -/
def basePath : String := "/usr/local/bin:/opt/homebrew/bin:/usr/bin:/bin"

/-- The `shellPath` constant of `startServer`:
`userShellEnv.PATH || process.env.PATH || ''`. -/
def shellPathOf (userShellEnv procEnv : String → Option String) : String :=
  jsOrString (userShellEnv "PATH") (jsOrString (procEnv "PATH") "")

/-- The entries written literally in the env object of `startServer`: PORT,
HOSTNAME, CLAUDE_GUI_DATA_DIR, ELECTRON_RUN_AS_NODE, HOME and PATH. -/
def fixedOverrides (port : Nat) (userDataDir home shellPath : String) :
    String → Option String :=
  fun k =>
    if k = "PORT" then some (toString port)
    else if k = "HOSTNAME" then some "127.0.0.1"
    else if k = "CLAUDE_GUI_DATA_DIR" then some userDataDir
    else if k = "ELECTRON_RUN_AS_NODE" then some "1"
    else if k = "HOME" then some home
    else if k = "PATH" then
      some (basePath ++ ":" ++ home ++ "/.npm-global/bin:" ++ home ++
        "/.local/bin:" ++ home ++ "/.claude/bin:" ++ shellPath)
    else none

/-- The keys the fixed overrides define. -/
def overrideKeys : List String :=
  ["PORT", "HOSTNAME", "CLAUDE_GUI_DATA_DIR", "ELECTRON_RUN_AS_NODE", "HOME",
    "PATH"]

/-- The child environment object of `startServer`:
`{ ...userShellEnv, ...process.env, ...userShellEnv, PORT: ..., HOSTNAME: ...,
CLAUDE_GUI_DATA_DIR: ..., ELECTRON_RUN_AS_NODE: '1', HOME: ..., PATH: ... }`. -/
def childEnv (userShellEnv procEnv : String → Option String)
    (port : Nat) (userDataDir home : String) : String → Option String :=
  spreadMerge (spreadMerge (spreadMerge userShellEnv procEnv) userShellEnv)
    (fixedOverrides port userDataDir home (shellPathOf userShellEnv procEnv))

/-! ## Path sandbox guard and the file-preview route (`GET`)

The route imports `readFilePreview`, `isPathSafe` and `isRootPath` from
`@/lib/files`, a module that is not among the repository's files; those three
are therefore modelled from the spec, while the route handler itself is
embedded from the source. -/

/-- Path segments of an absolute normalized path: the pieces between `/`
separators, empties dropped. -/
def pathSegments (p : String) : List String :=
  (splitString '/' p).filter (fun s => s != "")

/-- Modelled from the spec: `isPathSafe` of `@/lib/files` (the module is not
in src).  Per §4.5 it returns true iff the candidate is lexically equal to the
base or is a descendant of the base, compared segment-wise after
normalization, never by raw string prefix. -/
def isPathSafe (base candidate : String) : Bool :=
  candidate == base ||
    (pathSegments base).isPrefixOf (pathSegments candidate)

/-- Modelled from the spec: `isRootPath` of `@/lib/files` (not in src); true
when the normalized path has no named segments below the filesystem root. -/
def isRootPath (p : String) : Bool :=
  (pathSegments p).isEmpty

/-- Modelled from the spec: `readFilePreview` of `@/lib/files` (not in src);
the preview yields at most the requested number of lines of the file. -/
def readFilePreview (fileLines : List String) (maxLines : Nat) : List String :=
  fileLines.take maxLines

/-- The filesystem-dependent calls of the route handler: `path.resolve`,
`os.homedir()`, and the two guards imported from `@/lib/files`.  The claim
theorems about the handler hold for every oracle. -/
structure FsOracle where
  resolve : String → String
  homedir : String
  isRootPath : String → Bool
  isPathSafe : String → String → Bool

/-- JS truthiness of a nullable string (a `searchParams.get` result): `null`
and the empty string are falsy. -/
def jsTruthy : Option String → Bool
  | none => false
  | some s => s != ""

/-- Query parameters of one file-preview request.  `maxLines` is the value
`parseInt(searchParams.get('maxLines') || '200', 10)` produces for a numeric
parameter; `none` stands for an absent parameter, for which the literal
`'200'` is parsed. -/
structure PreviewRequest where
  path : Option String
  baseDir : Option String
  maxLines : Option Nat

/-- What the route handler decides: one of the rejection responses (each
returned before the `try` block that reads the file), or the call
`readFilePreview(resolvedPath, Math.min(maxLines, 1000))`. -/
inductive GETResult
  | missingPath
  | rootBaseRejected
  | outsideProjectScope
  | outsideAllowedScope
  | read (resolvedPath : String) (maxLines : Nat)
deriving DecidableEq

/-- The handler `GET` of `src/app/api/files/preview/route.ts`, up to the point
where `readFilePreview` is invoked. -/
def GET (fs : FsOracle) (req : PreviewRequest) : GETResult :=
  if jsTruthy req.path = false then GETResult.missingPath
  else
    let filePath := req.path.getD ""
    let maxLines := req.maxLines.getD 200
    let resolvedPath := fs.resolve filePath
    if jsTruthy req.baseDir = true then
      let resolvedBase := fs.resolve (req.baseDir.getD "")
      if fs.isRootPath resolvedBase = true then GETResult.rootBaseRejected
      else if fs.isPathSafe resolvedBase resolvedPath = false then
        GETResult.outsideProjectScope
      else GETResult.read resolvedPath (min maxLines 1000)
    else
      if fs.isPathSafe fs.homedir resolvedPath = false then
        GETResult.outsideAllowedScope
      else GETResult.read resolvedPath (min maxLines 1000)

/-! ## Supervisor globals, output events and `waitForServer` -/

/-- The observable fields of the `ChildProcess` handle. -/
structure ChildProcess where
  exitCode : Option Int
deriving DecidableEq

/-- The module-level mutable state `waitForServer` reads: the `serverProcess`
handle and the `serverErrors` diagnostic buffer. -/
structure Globals where
  serverProcess : Option ChildProcess
  serverErrors : List String
deriving DecidableEq

/-- Events the event loop can deliver between two looks at the globals: a
`data` event on the child's stdout or stderr (whose handler pushes the trimmed
line onto `serverErrors`), or the child ending.  For the latter, the runtime
records the exit code on the handle and emits `exit` inside one internal
callback, so no other code of this program runs between the two; the
registered `exit` handler then sets `serverProcess = null`. -/
inductive Evt
  | stdout (line : String)
  | stderr (line : String)
  | exited (code : Int)

/-- The runtime's write of `exitCode` onto the handle when the child ends. -/
def setExitCode (g : Globals) (code : Int) : Globals :=
  { g with serverProcess :=
      g.serverProcess.map (fun _ => { exitCode := some code }) }

/-- The `child.on('exit', ...)` handler of `startServer`:
`serverProcess = null`. -/
def onExitHandler (g : Globals) : Globals :=
  { g with serverProcess := none }

/-- One event processed by the event loop. -/
def stepEvt (g : Globals) : Evt → Globals
  | Evt.stdout line => { g with serverErrors := g.serverErrors ++ [line] }
  | Evt.stderr line => { g with serverErrors := g.serverErrors ++ [line] }
  | Evt.exited code => onExitHandler (setExitCode g code)

/-- Outcome of one `http.get` probe of `/api/health`: a response with some
status code, an `error` event on the request, or the per-request timeout
(`req.setTimeout(1000, ...)`) firing. -/
inductive Probe
  | status (code : Nat)
  | connError
  | probeTimeout
deriving DecidableEq

/-- The 1000ms timeout set on each individual probe request. -/
def probeTimeoutMs : Nat := 1000

/-- The 200ms delay before retrying after a failed probe. -/
def retryDelayMs : Nat := 200

/-- The default overall deadline of `waitForServer` (30000ms). -/
def waitTimeoutDefault : Nat := 30000

/-- One iteration of the `while` loop of `waitForServer`: the events the event
loop delivered while the previous iteration was awaiting, the value of
`Date.now() - start` at the loop condition, and this iteration's probe
outcome. -/
structure LoopIter where
  evts : List Evt
  elapsed : Nat
  probe : Probe

/-- How `waitForServer` ends: it returns, or it throws one of its two errors.
`exitedErr` carries the exit code and the lines its thrown message
interpolates (`serverErrors.join('\n')`: the whole buffer); `timedOutErr`
carries the lines its message interpolates (`serverErrors.slice(-10)` when the
buffer is nonempty, nothing otherwise). -/
inductive WaitResult
  | ready
  | exitedErr (code : Int) (outputLines : List String)
  | timedOutErr (timeoutMs : Nat) (outputLines : List String)
deriving DecidableEq

/-- The last `n` elements of a list (`Array.prototype.slice(-n)`, `n > 0`). -/
def lastN (n : Nat) (l : List String) : List String :=
  l.drop (l.length - n)

/-- Lines interpolated into the timeout message: the last 10 of
`serverErrors` when `serverErrors.length > 0`, none otherwise. -/
def timeoutLines (buf : List String) : List String :=
  if buf.length > 0 then lastN 10 buf else []

/-- The fail-fast test at the top of the loop body:
`if (serverProcess && serverProcess.exitCode !== null)`, returning the exit
code it would report. -/
def checkExited (g : Globals) : Option Int :=
  match g.serverProcess with
  | some h =>
    match h.exitCode with
    | some c => some c
    | none => none
  | none => none

/-- The `while (Date.now() - start < timeout)` loop of `waitForServer`, driven
by the iterations the run performs; an exhausted list stands for the wall
clock passing the deadline with no further events. -/
def waitForServer (timeoutMs : Nat) (g : Globals) :
    List LoopIter → WaitResult × Globals
  | [] => (WaitResult.timedOutErr timeoutMs (timeoutLines g.serverErrors), g)
  | it :: rest =>
    let g1 := it.evts.foldl stepEvt g
    if it.elapsed < timeoutMs then
      match checkExited g1 with
      | some c => (WaitResult.exitedErr c g1.serverErrors, g1)
      | none =>
        match it.probe with
        | Probe.status 200 => (WaitResult.ready, g1)
        | _ => waitForServer timeoutMs g1 rest
    else (WaitResult.timedOutErr timeoutMs (timeoutLines g1.serverErrors), g1)

/-! ## The `activate` handler -/

/-- The state the `app.on('activate', ...)` handler reads and writes. -/
structure AppState where
  windowCount : Nat
  serverProcess : Option ChildProcess
  serverPort : Option Nat
  isDev : Bool
deriving DecidableEq

/-- Externally visible actions of the handler: spawning the server child
(`startServer(port)`) and opening a window (`createWindow(port)`). -/
inductive Action
  | spawnServer (port : Nat)
  | createWindow (port : Nat)
deriving DecidableEq

/-- JS `a || b` on a nullable number: `null` and 0 are falsy. -/
def jsOrNat : Option Nat → Nat → Nat
  | some n, d => if n = 0 then d else n
  | none, d => d

/-- The `app.on('activate', ...)` handler.  `freshPort` is what `getPort()`
resolves to; `waitOk` whether `waitForServer` resolves.  When it rejects, the
`catch` only logs, so no window opens but the spawned handle stays. -/
def activate (s : AppState) (freshPort : Nat) (waitOk : Bool) :
    AppState × List Action :=
  if s.windowCount = 0 then
    if s.isDev = false ∧ s.serverProcess = none then
      let s1 := { s with serverProcess := some { exitCode := none } }
      if waitOk then
        let s2 := { s1 with serverPort := some freshPort }
        ({ s2 with windowCount := s2.windowCount + 1 },
          [Action.spawnServer freshPort,
            Action.createWindow (jsOrNat s2.serverPort 3000)])
      else (s1, [Action.spawnServer freshPort])
    else
      ({ s with windowCount := s.windowCount + 1 },
        [Action.createWindow (jsOrNat s.serverPort 3000)])
  else (s, [])

/-! ## General lemmas -/

lemma findIdx_of_forall_not (p : Char → Bool) (l : List Char)
    (h : ∀ c ∈ l, p c = false) : l.findIdx p = l.length := by
  induction l with
  | nil => rfl
  | cons a as ih =>
    have ha : p a = false := h a (List.mem_cons_self a as)
    rw [List.findIdx_cons, ha]
    simp [ih (fun c hc => h c (List.mem_cons_of_mem a hc))]

lemma findIdx_append_cons (p : Char → Bool) (xs ys : List Char) (y : Char)
    (hxs : ∀ c ∈ xs, p c = false) (hy : p y = true) :
    (xs ++ y :: ys).findIdx p = xs.length := by
  induction xs with
  | nil => simp [List.findIdx_cons, hy]
  | cons a as ih =>
    have ha : p a = false := hxs a (List.mem_cons_self a as)
    rw [List.cons_append, List.findIdx_cons, ha]
    simp [ih (fun c hc => hxs c (List.mem_cons_of_mem a hc))]

/-! ## Claim theorems: environment capture and merge -/

/-- C5: environment-capture parsing splits each output line on the first `=`
only: `KEY ++ "=" ++ VALUE` yields key `KEY` with the entire remainder as its
value (so `KEY=V1=V2` maps `KEY` to `V1=V2`); a line with no `=` at all, and a
line whose `=` is at position 0 (empty key), are discarded. -/
theorem parseEnvLine_first_eq :
    ∀ key value line : String,
      (key ≠ "" → (∀ c ∈ key.toList, c ≠ '=') →
        parseEnvLine (key ++ "=" ++ value) = some (key, value)) ∧
      ((∀ c ∈ line.toList, c ≠ '=') → parseEnvLine line = none) ∧
      parseEnvLine ("=" ++ line) = none := by
  intro key value line
  refine ⟨?_, ?_, ?_⟩
  · intro hk hne
    have hne' : ∀ c ∈ key.data, (c == '=') = false := fun c hc =>
      beq_eq_false_iff_ne.mpr (hne c hc)
    have hdata : (key ++ "=" ++ value).toList = key.data ++ '=' :: value.data := by
      show ((key ++ "=") ++ value).data = key.data ++ '=' :: value.data
      rw [String.data_append, String.data_append]
      simp
    have hidx : (key.data ++ '=' :: value.data).findIdx (fun c => c == '=')
        = key.data.length :=
      findIdx_append_cons _ _ _ _ hne' (by simp)
    have hklen : key.data ≠ [] := by
      intro h
      apply hk
      cases key with
      | mk d =>
        have hd : d = [] := h
        subst hd
        decide
    simp only [parseEnvLine]
    rw [hdata, hidx]
    have h0 : ¬ (key.data.length = 0 ∨
        key.data.length = (key.data ++ '=' :: value.data).length) := by
      simp [List.length_append]
      intro h
      exact hklen (List.length_eq_zero.mp h)
    rw [if_neg h0]
    have htake : (key.data ++ '=' :: value.data).take key.data.length
        = key.data := by
      simp
    have hdrop : (key.data ++ '=' :: value.data).drop (key.data.length + 1)
        = value.data := by
      have hsplit : key.data ++ '=' :: value.data
          = (key.data ++ ['=']) ++ value.data := by
        simp
      rw [hsplit]
      have hlen : key.data.length + 1 = (key.data ++ ['=']).length := by
        simp
      rw [hlen, List.drop_left]
    rw [htake, hdrop]
  · intro hne
    have h : line.toList.findIdx (fun c => c == '=') = line.toList.length :=
      findIdx_of_forall_not _ _ (fun c hc => beq_eq_false_iff_ne.mpr (hne c hc))
    simp only [parseEnvLine]
    rw [if_pos (Or.inr h)]
  · have hdata : ("=" ++ line).toList = '=' :: line.data := by
      show ("=" ++ line).data = '=' :: line.data
      rw [String.data_append]
      rfl
    simp only [parseEnvLine]
    rw [hdata, List.findIdx_cons]
    simp

/-- Closed instance of C5 at `KEY=V1=V2`, a no-`=` line and a leading-`=`
line. -/
theorem parseEnvLine_first_eq_app :
    parseEnvLine "KEY=V1=V2" = some ("KEY", "V1=V2") ∧
    parseEnvLine "NOEQ" = none ∧
    parseEnvLine "=x" = none :=
  ⟨(parseEnvLine_first_eq "KEY" "V1=V2" "x").1 (by decide) (by decide),
    (parseEnvLine_first_eq "KEY" "V1=V2" "NOEQ").2.1 (by decide),
    (parseEnvLine_first_eq "KEY" "V1=V2" "x").2.2⟩

/-- C6: `loadUserShellEnv` is total in the outcome of the shell invocation: on
every failure mode (spawn failure, timeout, any other thrown error) it returns
the empty mapping and records a warning instead of raising; on success it
returns the parsed dump without warning. -/
theorem loadUserShellEnv_no_throw :
    ∀ (f : ExecFailure) (out k : String),
      (loadUserShellEnv (ShellResult.err f)).1 k = none ∧
      (loadUserShellEnv (ShellResult.err f)).2 = true ∧
      loadUserShellEnv (ShellResult.ok out) = (parseEnvOutput out, false) := by
  intro f out k
  exact ⟨rfl, rfl, rfl⟩

/-- Closed instance of C6 at a timeout failure. -/
theorem loadUserShellEnv_no_throw_app :
    (loadUserShellEnv (ShellResult.err ExecFailure.timedOut)).1 "PATH" = none ∧
    (loadUserShellEnv (ShellResult.err ExecFailure.timedOut)).2 = true :=
  ⟨(loadUserShellEnv_no_throw ExecFailure.timedOut "" "PATH").1,
    (loadUserShellEnv_no_throw ExecFailure.timedOut "" "PATH").2.1⟩

/-- C4: in the merged child environment, every captured-shell value survives
on non-override keys (even when `process.env` also defines the key, since the
shell capture is re-applied above it), and on the six fixed-override keys the
override value wins outright. -/
theorem childEnv_precedence :
    ∀ (userShellEnv procEnv : String → Option String) (port : Nat)
      (userDataDir home k v : String),
      (k ∉ overrideKeys → userShellEnv k = some v →
        childEnv userShellEnv procEnv port userDataDir home k = some v) ∧
      (k ∈ overrideKeys →
        childEnv userShellEnv procEnv port userDataDir home k =
          fixedOverrides port userDataDir home
            (shellPathOf userShellEnv procEnv) k) ∧
      childEnv userShellEnv procEnv port userDataDir home "PORT"
        = some (toString port) := by
  intro shell proc port ud home k v
  refine ⟨?_, ?_, ?_⟩
  · intro hk hv
    have hfix : fixedOverrides port ud home (shellPathOf shell proc) k = none := by
      simp [overrideKeys] at hk
      obtain ⟨h1, h2, h3, h4, h5, h6⟩ := hk
      simp [fixedOverrides, h1, h2, h3, h4, h5, h6]
    simp [childEnv, spreadMerge, hfix, hv]
  · intro hk
    simp [overrideKeys] at hk
    rcases hk with rfl | rfl | rfl | rfl | rfl | rfl <;>
      simp [childEnv, spreadMerge, fixedOverrides]
  · simp [childEnv, spreadMerge, fixedOverrides]

/-- Closed instance of C4: a shell-captured key beats the inherited
environment; the PORT override beats both. -/
theorem childEnv_precedence_app :
    childEnv (fun k => if k = "API_KEY" then some "from-shell" else none)
      (fun k => if k = "API_KEY" then some "from-proc" else none)
      4321 "/data" "/home/u" "API_KEY" = some "from-shell" ∧
    childEnv (fun k => if k = "API_KEY" then some "from-shell" else none)
      (fun k => if k = "API_KEY" then some "from-proc" else none)
      4321 "/data" "/home/u" "PORT" = some (toString 4321) :=
  ⟨(childEnv_precedence (fun k => if k = "API_KEY" then some "from-shell" else none)
      (fun k => if k = "API_KEY" then some "from-proc" else none)
      4321 "/data" "/home/u" "API_KEY" "from-shell").1 (by decide) (by decide),
    (childEnv_precedence (fun k => if k = "API_KEY" then some "from-shell" else none)
      (fun k => if k = "API_KEY" then some "from-proc" else none)
      4321 "/data" "/home/u" "PORT" "").2.2⟩

/-! ## Claim theorems: sandbox guard and the preview route -/

lemma isPrefixOf_iff_exists (l₁ l₂ : List String) :
    l₁.isPrefixOf l₂ = true ↔ ∃ t, l₁ ++ t = l₂ := by
  induction l₁ generalizing l₂ with
  | nil => simp [List.isPrefixOf]
  | cons a as ih =>
    cases l₂ with
    | nil => simp [List.isPrefixOf]
    | cons b bs =>
      simp only [List.isPrefixOf, Bool.and_eq_true, beq_iff_eq, ih,
        List.cons_append, List.cons.injEq]
      constructor
      · rintro ⟨rfl, t, rfl⟩
        exact ⟨t, rfl, rfl⟩
      · rintro ⟨t, rfl, rfl⟩
        exact ⟨rfl, t, rfl⟩

/-- C2: the spec-modelled `isPathSafe` accepts exactly the candidates that
equal the base or extend its segment sequence segment-wise, and rejects a
sibling that merely shares a raw string prefix. -/
theorem isPathSafe_segmentwise :
    ∀ B C : String,
      (isPathSafe B C = true ↔
        (C = B ∨ ∃ rest, pathSegments C = pathSegments B ++ rest)) ∧
      isPathSafe "/home/alice" "/home/alice/project" = true ∧
      isPathSafe "/home/alice" "/home/alice-2/project" = false := by
  intro B C
  refine ⟨?_, by decide, by decide⟩
  simp only [isPathSafe, Bool.or_eq_true, beq_iff_eq, isPrefixOf_iff_exists]
  constructor
  · rintro (h | ⟨t, ht⟩)
    · exact Or.inl h
    · exact Or.inr ⟨t, ht.symm⟩
  · rintro (h | ⟨t, ht⟩)
    · exact Or.inl h
    · exact Or.inr ⟨t, ht.symm⟩

/-- Closed instance of C2: a descendant is accepted through the segment
characterization. -/
theorem isPathSafe_segmentwise_app :
    isPathSafe "/home/u" "/home/u/docs/notes.txt" = true :=
  (isPathSafe_segmentwise "/home/u" "/home/u/docs/notes.txt").1.mpr
    (Or.inr ⟨["docs", "notes.txt"], by decide⟩)

/-- Concrete oracle for closed instances: identity `resolve`, home directory
`/home/u`, and the spec-modelled guards. -/
def fsW : FsOracle :=
  { resolve := fun s => s, homedir := "/home/u",
    isRootPath := isRootPath, isPathSafe := isPathSafe }

/-- C1: the preview route evaluates the sandbox decision strictly before any
read: a root base is rejected, an unsafe path under an explicit base is
rejected, an unsafe path under the home-directory fallback is rejected, and
`readFilePreview` is reached only when the applicable check passed. -/
theorem GET_sandbox_before_read :
    ∀ (fs : FsOracle) (req : PreviewRequest),
      (∀ bd, req.baseDir = some bd → bd ≠ "" → jsTruthy req.path = true →
        fs.isRootPath (fs.resolve bd) = true →
        GET fs req = GETResult.rootBaseRejected) ∧
      (∀ bd fp, req.baseDir = some bd → bd ≠ "" → req.path = some fp →
        fp ≠ "" → fs.isRootPath (fs.resolve bd) = false →
        fs.isPathSafe (fs.resolve bd) (fs.resolve fp) = false →
        GET fs req = GETResult.outsideProjectScope) ∧
      (∀ fp, jsTruthy req.baseDir = false → req.path = some fp → fp ≠ "" →
        fs.isPathSafe fs.homedir (fs.resolve fp) = false →
        GET fs req = GETResult.outsideAllowedScope) ∧
      (∀ p l, GET fs req = GETResult.read p l →
        jsTruthy req.path = true ∧ p = fs.resolve (req.path.getD "") ∧
        (if jsTruthy req.baseDir = true then
          fs.isRootPath (fs.resolve (req.baseDir.getD "")) = false ∧
          fs.isPathSafe (fs.resolve (req.baseDir.getD "")) p = true
        else fs.isPathSafe fs.homedir p = true)) := by
  intro fs req
  refine ⟨?_, ?_, ?_, ?_⟩
  · intro bd hbd hbdne hpt hroot
    have hb2 : jsTruthy (some bd) = true := by simp [jsTruthy, hbdne]
    simp [GET, hbd, hb2, hpt, hroot]
  · intro bd fp hbd hbdne hfp hfpne hroot hsafe
    have hb2 : jsTruthy (some bd) = true := by simp [jsTruthy, hbdne]
    have hp2 : jsTruthy (some fp) = true := by simp [jsTruthy, hfpne]
    simp [GET, hbd, hfp, hb2, hp2, hroot, hsafe]
  · intro fp hbf hfp hfpne hsafe
    have hp2 : jsTruthy (some fp) = true := by simp [jsTruthy, hfpne]
    simp [GET, hfp, hp2, hbf, hsafe]
  · intro p l h
    simp only [GET] at h
    split at h
    · exact absurd h (by simp)
    · next hp =>
      have hpt : jsTruthy req.path = true := by
        revert hp
        cases jsTruthy req.path <;> simp
      split at h
      · next hb =>
        split at h
        · exact absurd h (by simp)
        · next hroot =>
          have hroot' : fs.isRootPath (fs.resolve (req.baseDir.getD "")) = false := by
            revert hroot
            cases fs.isRootPath (fs.resolve (req.baseDir.getD "")) <;> simp
          split at h
          · exact absurd h (by simp)
          · next hsafe =>
            have hsafe' : fs.isPathSafe (fs.resolve (req.baseDir.getD ""))
                (fs.resolve (req.path.getD "")) = true := by
              revert hsafe
              cases fs.isPathSafe (fs.resolve (req.baseDir.getD ""))
                (fs.resolve (req.path.getD "")) <;> simp
            cases h
            refine ⟨hpt, rfl, ?_⟩
            rw [if_pos hb]
            exact ⟨hroot', hsafe'⟩
      · next hb =>
        have hbf : jsTruthy req.baseDir = false := by
          revert hb
          cases jsTruthy req.baseDir <;> simp
        split at h
        · exact absurd h (by simp)
        · next hsafe =>
          have hsafe' : fs.isPathSafe fs.homedir
              (fs.resolve (req.path.getD "")) = true := by
            revert hsafe
            cases fs.isPathSafe fs.homedir (fs.resolve (req.path.getD "")) <;> simp
          cases h
          refine ⟨hpt, rfl, ?_⟩
          rw [if_neg (by simp [hbf])]
          exact hsafe'

/-- Closed instance of C1: a root base is rejected; without a base, a path
outside the home directory is rejected. -/
theorem GET_sandbox_before_read_app :
    GET fsW { path := some "/etc/passwd", baseDir := some "/", maxLines := none }
      = GETResult.rootBaseRejected ∧
    GET fsW { path := some "/etc/passwd", baseDir := none, maxLines := none }
      = GETResult.outsideAllowedScope :=
  ⟨(GET_sandbox_before_read fsW
      { path := some "/etc/passwd", baseDir := some "/", maxLines := none }).1
      "/" rfl (by decide) (by decide) (by decide),
    (GET_sandbox_before_read fsW
      { path := some "/etc/passwd", baseDir := none, maxLines := none }).2.2.1
      "/etc/passwd" rfl rfl (by decide) (by decide)⟩

/-- C10: the line limit handed to the reader is `Math.min(maxLines, 1000)`
with default 200, so a request for 5000 lines reads at most 1000. -/
theorem GET_maxLines_clamp :
    ∀ (fs : FsOracle) (req : PreviewRequest) (p : String) (l : Nat)
      (fileLines : List String),
      (GET fs req = GETResult.read p l →
        l = min (req.maxLines.getD 200) 1000) ∧
      (req.maxLines = some 5000 → GET fs req = GETResult.read p l →
        l = 1000 ∧ (readFilePreview fileLines l).length ≤ 1000) ∧
      (req.maxLines = none → GET fs req = GETResult.read p l → l = 200) := by
  intro fs req p l fileLines
  have hmain : GET fs req = GETResult.read p l →
      l = min (req.maxLines.getD 200) 1000 := by
    intro h
    simp only [GET] at h
    split at h
    · exact absurd h (by simp)
    · split at h
      · split at h
        · exact absurd h (by simp)
        · split at h
          · exact absurd h (by simp)
          · cases h
            rfl
      · split at h
        · exact absurd h (by simp)
        · cases h
          rfl
  refine ⟨hmain, ?_, ?_⟩
  · intro hml h
    have hl := hmain h
    rw [hml] at hl
    simp at hl
    subst hl
    exact ⟨rfl, List.length_take_le 1000 fileLines⟩
  · intro hml h
    have hl := hmain h
    rw [hml] at hl
    simpa using hl

/-- Closed instance of C10: requesting 5000 lines under the home scope reads
with limit 1000, and the preview then has at most 1000 lines. -/
theorem GET_maxLines_clamp_app :
    1000 = 1000 ∧ (readFilePreview ["l1", "l2"] 1000).length ≤ 1000 :=
  (GET_maxLines_clamp fsW
    { path := some "/home/u/f.txt", baseDir := none, maxLines := some 5000 }
    "/home/u/f.txt" 1000 ["l1", "l2"]).2.1 rfl (by decide)

/-! ## Claim theorems: supervisor wait loop and activate handler -/

/-- No observer of the globals can see a recorded exit code on a live handle:
the exit-code write and the handle-clearing `exit` handler run back to back. -/
def noExitObserved (g : Globals) : Prop :=
  ∀ h, g.serverProcess = some h → h.exitCode = none

lemma noExitObserved_step (g : Globals) (e : Evt) (hg : noExitObserved g) :
    noExitObserved (stepEvt g e) := by
  cases e with
  | stdout line => exact fun h hh => hg h hh
  | stderr line => exact fun h hh => hg h hh
  | exited code =>
    intro h hh
    simp [stepEvt, onExitHandler, setExitCode] at hh

lemma noExitObserved_foldl (evts : List Evt) (g : Globals)
    (hg : noExitObserved g) : noExitObserved (evts.foldl stepEvt g) := by
  induction evts generalizing g with
  | nil => exact hg
  | cons e es ih => exact ih _ (noExitObserved_step g e hg)

lemma checkExited_eq_none (g : Globals) (hg : noExitObserved g) :
    checkExited g = none := by
  cases hp : g.serverProcess with
  | none => simp [checkExited, hp]
  | some h => simp [checkExited, hp, hg h hp]

lemma waitForServer_step_failed (t : Nat) (g : Globals) (it : LoopIter)
    (rest : List LoopIter) (hg : noExitObserved g) (he : it.elapsed < t)
    (hp : it.probe ≠ Probe.status 200) :
    waitForServer t g (it :: rest)
      = waitForServer t (it.evts.foldl stepEvt g) rest := by
  have hchk : checkExited (it.evts.foldl stepEvt g) = none :=
    checkExited_eq_none _ (noExitObserved_foldl it.evts g hg)
  simp only [waitForServer, if_pos he, hchk]

lemma waitForServer_ready_of_first_200 :
    ∀ (t : Nat) (pre : List LoopIter) (g : Globals) (it : LoopIter)
      (rest : List LoopIter),
      noExitObserved g →
      (∀ j ∈ pre, j.elapsed < t ∧ j.probe ≠ Probe.status 200) →
      it.elapsed < t → it.probe = Probe.status 200 →
      (waitForServer t g (pre ++ it :: rest)).1 = WaitResult.ready := by
  intro t pre
  induction pre with
  | nil =>
    intro g it rest hg hpre he hp
    have hchk : checkExited (it.evts.foldl stepEvt g) = none :=
      checkExited_eq_none _ (noExitObserved_foldl it.evts g hg)
    simp only [List.nil_append, waitForServer, if_pos he, hchk, hp]
  | cons j pre ih =>
    intro g it rest hg hpre he hp
    have hj := hpre j (List.mem_cons_self j pre)
    rw [List.cons_append,
      waitForServer_step_failed t g j (pre ++ it :: rest) hg hj.1 hj.2]
    exact ih _ it rest (noExitObserved_foldl j.evts g hg)
      (fun x hx => hpre x (List.mem_cons_of_mem j hx)) he hp

/-- C9: the poller returns success at the first probe whose status is 200,
regardless of earlier failed probes; every non-200 status, connection error
or per-probe timeout only makes that one probe fail and the loop retry; and
the per-probe 1s timeout is a separate, smaller constant than the 30s overall
deadline. -/
theorem waitForServer_probe_semantics :
    ∀ (t : Nat) (g : Globals) (pre : List LoopIter) (it : LoopIter)
      (rest : List LoopIter),
      (noExitObserved g →
        (∀ j ∈ pre, j.elapsed < t ∧ j.probe ≠ Probe.status 200) →
        it.elapsed < t → it.probe = Probe.status 200 →
        (waitForServer t g (pre ++ it :: rest)).1 = WaitResult.ready) ∧
      (noExitObserved g → it.elapsed < t → it.probe ≠ Probe.status 200 →
        waitForServer t g (it :: rest)
          = waitForServer t (it.evts.foldl stepEvt g) rest) ∧
      (probeTimeoutMs = 1000 ∧ waitTimeoutDefault = 30000 ∧
        probeTimeoutMs < waitTimeoutDefault) := by
  intro t g pre it rest
  exact ⟨waitForServer_ready_of_first_200 t pre g it rest,
    waitForServer_step_failed t g it rest, by decide⟩

/-- The globals right after `startServer` returns: a live handle with no exit
code recorded yet, and the buffer reset to empty. -/
def freshGlobals : Globals :=
  { serverProcess := some { exitCode := none }, serverErrors := [] }

/-- Closed instance of C9: two failed probes (a connection error, then a
per-probe timeout) followed by a 200 give a ready result. -/
theorem waitForServer_probe_semantics_app :
    (waitForServer 30000 freshGlobals
      ([{ evts := [], elapsed := 0, probe := Probe.connError },
        { evts := [], elapsed := 250, probe := Probe.probeTimeout }] ++
        { evts := [], elapsed := 1500, probe := Probe.status 200 } :: [])).1
      = WaitResult.ready :=
  (waitForServer_probe_semantics 30000 freshGlobals
    [{ evts := [], elapsed := 0, probe := Probe.connError },
      { evts := [], elapsed := 250, probe := Probe.probeTimeout }]
    { evts := [], elapsed := 1500, probe := Probe.status 200 } []).1
    (by
      intro h hh
      injection hh with e
      rw [← e])
    (by decide) (by decide) rfl

/-- Lines the stdout/stderr `data` handlers append, in order. -/
def outputLinesOf : List Evt → List String
  | [] => []
  | Evt.stdout l :: es => l :: outputLinesOf es
  | Evt.stderr l :: es => l :: outputLinesOf es
  | Evt.exited _ :: es => outputLinesOf es

/-- A burst of `n` stdout data events. -/
def burstOf (n : Nat) : List Evt :=
  List.replicate n (Evt.stdout "output line")

/-- C7 counterexample: after eleven output events the diagnostic buffer holds
all eleven lines, not only the ten most recent. -/
theorem serverErrors_unbounded :
    ((burstOf 11).foldl stepEvt freshGlobals).serverErrors.length = 11 ∧
    ¬ ((burstOf 11).foldl stepEvt freshGlobals).serverErrors.length ≤ 10 := by
  constructor
  · decide
  · decide

/-- C7 amended: the buffer itself retains every captured line (it is
unbounded); boundedness holds only at reporting time, where the timeout
failure message carries at most the ten most recent lines, a suffix of the
buffer. -/
theorem diagnosticBuffer_amended :
    ∀ (g : Globals) (evts : List Evt) (buf : List String),
      (evts.foldl stepEvt g).serverErrors
        = g.serverErrors ++ outputLinesOf evts ∧
      (timeoutLines buf).length ≤ 10 ∧
      ∃ dropped, dropped ++ timeoutLines buf = buf := by
  intro g evts buf
  refine ⟨?_, ?_, ?_⟩
  · induction evts generalizing g with
    | nil => simp [outputLinesOf]
    | cons e es ih =>
      cases e with
      | stdout l =>
        rw [List.foldl_cons, ih]
        simp [stepEvt, outputLinesOf]
      | stderr l =>
        rw [List.foldl_cons, ih]
        simp [stepEvt, outputLinesOf]
      | exited c =>
        rw [List.foldl_cons, ih]
        simp [stepEvt, onExitHandler, setExitCode, outputLinesOf]
  · unfold timeoutLines
    split
    · unfold lastN
      rw [List.length_drop]
      omega
    · simp
  · unfold timeoutLines
    split
    · exact ⟨buf.take (buf.length - 10), List.take_append_drop _ _⟩
    · exact ⟨buf, by simp⟩

/-- Closed instance of the amended C7: one stdout line and an exit event leave
exactly the pushed line in the buffer. -/
theorem diagnosticBuffer_amended_app :
    ([Evt.stdout "a", Evt.exited 1].foldl stepEvt freshGlobals).serverErrors
      = [] ++ outputLinesOf [Evt.stdout "a", Evt.exited 1] :=
  (diagnosticBuffer_amended freshGlobals [Evt.stdout "a", Evt.exited 1] []).1

/-- A run in which the child crashes with code 1 during the first retry
delay, after writing one stderr line; every probe then fails. -/
def crashedRun : List LoopIter :=
  [{ evts := [Evt.stderr "Error: boom", Evt.exited 1], elapsed := 300,
      probe := Probe.connError },
    { evts := [], elapsed := 600, probe := Probe.connError }]

/-- C8 (a bug in the code): once the child's `exit` event is processed, the
handler has already cleared `serverProcess`, so the loop's fail-fast test
reads `null` and never fires; the crashed run above ends in the timeout
error, not in the fail-fast exit error the comment in `waitForServer`
promises. -/
theorem waitForServer_fail_fast_unreachable :
    checkExited ([Evt.stderr "Error: boom", Evt.exited 1].foldl stepEvt
      freshGlobals) = none ∧
    (waitForServer 30000 freshGlobals crashedRun).1
      = WaitResult.timedOutErr 30000 ["Error: boom"] := by
  constructor
  · decide
  · decide

/-- C3: the activate path never spawns while a handle is live: a live
`serverProcess` passes through unchanged with no spawn action, and a spawn
action occurs exactly when there is no window, the app is packaged, and no
handle is live. -/
theorem activate_single_instance :
    ∀ (s : AppState) (freshPort : Nat) (waitOk : Bool),
      (∀ h, s.serverProcess = some h →
        (activate s freshPort waitOk).1.serverProcess = some h ∧
        ∀ q, Action.spawnServer q ∉ (activate s freshPort waitOk).2) ∧
      (∀ q, Action.spawnServer q ∈ (activate s freshPort waitOk).2 ↔
        (s.windowCount = 0 ∧ s.isDev = false ∧ s.serverProcess = none ∧
          q = freshPort)) := by
  intro s fp wo
  constructor
  · intro h hh
    have hc : ¬ (s.isDev = false ∧ s.serverProcess = none) := by
      rintro ⟨-, h2⟩
      rw [h2] at hh
      exact absurd hh (by simp)
    constructor
    · by_cases hw : s.windowCount = 0
      · simp [activate, hw, hc, hh]
      · simp [activate, hw, hh]
    · intro q
      by_cases hw : s.windowCount = 0
      · simp [activate, hw, hc]
      · simp [activate, hw]
  · intro q
    by_cases hw : s.windowCount = 0
    · by_cases hc : s.isDev = false ∧ s.serverProcess = none
      · cases wo <;> simp [activate, hw, hc.1, hc.2]
      · have hmem : Action.spawnServer q ∈ (activate s fp wo).2 ↔ False := by
          simp [activate, hw, hc]
        rw [hmem]
        constructor
        · exact False.elim
        · rintro ⟨-, h1, h2, -⟩
          exact hc ⟨h1, h2⟩
    · have hmem : Action.spawnServer q ∈ (activate s fp wo).2 ↔ False := by
        simp [activate, hw]
      rw [hmem]
      constructor
      · exact False.elim
      · rintro ⟨h0, -, -, -⟩
        exact hw h0

/-- A state with a live handle, one of the situations the activate handler
must not spawn in. -/
def sLive : AppState :=
  { windowCount := 0, serverProcess := some { exitCode := none },
    serverPort := some 7000, isDev := false }

/-- Closed instance of C3: with a live handle, activate keeps the handle and
emits no spawn. -/
theorem activate_single_instance_app :
    (activate sLive 4000 true).1.serverProcess = some { exitCode := none } ∧
    Action.spawnServer 4000 ∉ (activate sLive 4000 true).2 :=
  ⟨((activate_single_instance sLive 4000 true).1 { exitCode := none } rfl).1,
    ((activate_single_instance sLive 4000 true).1 { exitCode := none } rfl).2
      4000⟩

end CodePilot
